import Mathlib

/-!
Shallow embedding of the human-behavior simulation engine
(`src/humanize/{timing,config,mouse,keyboard,scroll}.py`) and proofs about it.

Modelling conventions, used throughout:

* Python floats are modelled as exact rationals (`ℚ`); Python ints as `ℤ`.
* The process-wide pseudo-random generator is modelled as explicit streams of
  draws (`Streams`), consumed sequentially: every random-consuming function
  takes the current stream index `n : ℕ` and returns the next index, mirroring
  the order in which the Python code calls the `random` module.
  - `random.random()` and the draws underlying `uniform`/`randint`/`choice`
    read `Streams.unit` (a unit-interval draw);
  - `random.gauss(mu, sigma)` reads `Streams.gauss` (a standard-normal draw,
    an arbitrary rational since the support is all of `ℝ`);
  - `random.expovariate(lam)` reads `Streams.expo` (an `Exp(1)` draw, scaled);
  - `random.triangular(lo, hi, mode)` reads `Streams.tri` (the raw triangular
    draw; the library guarantees it lies in `[lo, hi]`, which theorems take as
    a hypothesis where needed).
* Transcendental float functions (`math.sqrt`, `math.log2`, `math.cos`,
  `math.sin`, `math.pi`) have no exact rational counterpart; they are
  abstracted as oracle parameters (`Oracles`).  Theorems quantify over all
  oracles, so they hold in particular for the true float functions.
* Python's `int(x)` truncation toward zero is `pyInt`.
-/

attribute [local semireducible] Rat.ofScientific Rat.mul Rat.inv Rat.add Rat.sub

/-- Explicit streams of pseudo-random draws; see the module docstring. -/
structure Streams where
  unit : ℕ → ℚ
  gauss : ℕ → ℚ
  expo : ℕ → ℚ
  tri : ℕ → ℚ

/-- Oracle parameters abstracting float transcendental functions. -/
structure Oracles where
  sq : ℚ → ℚ
  lg : ℚ → ℚ
  cosQ : ℚ → ℚ
  sinQ : ℚ → ℚ
  piQ : ℚ

/-- Python `int(x)`: truncation toward zero. -/
def pyInt (q : ℚ) : ℤ := if 0 ≤ q then ⌊q⌋ else ⌈q⌉

/-- Model of `random.uniform(a, b)` from the unit draw at index `n`. -/
def pyUniform (s : Streams) (n : ℕ) (a b : ℚ) : ℚ := a + (b - a) * s.unit n

/-- Model of `random.randint(a, b)` (uniform over the integers `a..b`):
`a + ⌊u·(b-a+1)⌋` where `u` is the unit draw at index `n`. -/
def pyRandint (s : Streams) (n : ℕ) (a b : ℤ) : ℤ :=
  a + ⌊s.unit n * ((b : ℚ) - (a : ℚ) + 1)⌋

/-- Model of `random.choice(l)`: index `⌊u·len(l)⌋` into the list. -/
def pyChoice {α : Type} (s : Streams) (n : ℕ) (l : List α) (dflt : α) : α :=
  l.getD (⌊s.unit n * (l.length : ℚ)⌋).toNat dflt

/-- Model of `random.gauss(mu, sigma)`. -/
def pyGauss (s : Streams) (n : ℕ) (mu sigma : ℚ) : ℚ := mu + sigma * s.gauss n

/-- Model of `random.expovariate(lam)` (an `Exp(1)` draw divided by the rate). -/
def pyExpo (s : Streams) (n : ℕ) (lam : ℚ) : ℚ := s.expo n / lam

/-- Model of `random.triangular(lo, hi, mode)`: the raw triangular draw at
index `n`.  The `lo`, `hi`, `mode` arguments are recorded for faithfulness to
the call but the draw itself comes from the stream. -/
def pyTriangular (s : Streams) (n : ℕ) (_lo _hi _mode : ℚ) : ℚ := s.tri n

/-! ## Configuration model (`src/humanize/config.py`) -/

/-- `MouseConfig` dataclass with its source default values. -/
structure MouseConfig where
  enabled : Bool := true
  speed : ℚ := 1
  overshoot_chance : ℚ := 0.15
  overshoot_distance : ℤ × ℤ := (5, 25)
  jitter : ℤ := 2
  click_offset_max : ℤ := 10
  move_step_delay : ℤ × ℤ := (5, 15)
  trajectory_points : ℤ × ℤ := (15, 30)
  wind_gravity : ℚ := 9
  wind_wind : ℚ := 3
  wind_min_wait : ℚ := 2
  wind_max_wait : ℚ := 10
  wind_max_step : ℚ := 10
  wind_target_area : ℚ := 8
  deriving DecidableEq, Repr

/-- `KeyboardConfig` dataclass with its source default values. -/
structure KeyboardConfig where
  enabled : Bool := true
  speed : ℚ := 1
  keystroke_delay : ℤ × ℤ := (80, 200)
  complex_char_delay : ℤ × ℤ := (150, 350)
  typo_chance : ℚ := 0.05
  typo_realize_delay : ℤ × ℤ := (100, 400)
  typo_correct_delay : ℤ × ℤ := (50, 150)
  thinking_pause_chance : ℚ := 0.07
  thinking_pause_duration : ℤ × ℤ := (1000, 3500)
  space_delay : ℤ × ℤ := (100, 400)
  key_hold_time : ℤ × ℤ := (30, 100)
  paste_chance_for_long_text : ℚ := 0
  paste_threshold_length : ℤ := 50
  deriving DecidableEq, Repr

/-- `ScrollConfig` dataclass with its source default values. -/
structure ScrollConfig where
  enabled : Bool := true
  speed : ℚ := 1
  step_size : ℤ × ℤ := (50, 150)
  momentum_enabled : Bool := true
  momentum_decay : ℚ := 0.85
  jitter : ℤ := 15
  overshoot_chance : ℚ := 0.3
  overshoot_distance : ℤ × ℤ := (50, 200)
  step_delay : ℤ × ℤ := (30, 100)
  reading_pause_chance : ℚ := 0.3
  reading_pause_duration : ℤ × ℤ := (500, 2000)
  deriving DecidableEq, Repr

/-- `TimingConfig` dataclass with its source default values. -/
structure TimingConfig where
  action_delay : ℤ × ℤ := (300, 1500)
  page_load_delay : ℤ × ℤ := (1000, 3000)
  thinking_delay : ℤ × ℤ := (2000, 5000)
  micro_delay : ℤ × ℤ := (50, 200)
  click_hesitation : ℤ × ℤ := (100, 500)
  pre_type_delay : ℤ × ℤ := (200, 600)
  variance_factor : ℚ := 0.3
  deriving DecidableEq, Repr

/-- `ExplorationConfig` dataclass with its source default values. -/
structure ExplorationConfig where
  enabled : Bool := true
  intensity : String := "normal"
  max_headings : ℤ := 3
  link_hover_chance : ℚ := 0.2
  duration : ℚ × ℚ := (3, 8)
  scroll_chance : ℚ := 0.6
  max_scroll_percent : ℚ := 0.5
  deriving DecidableEq, Repr

/-- `HumanizeLevel` enum. -/
inductive HumanizeLevel where
  | off | light | moderate | aggressive | custom
  deriving DecidableEq, Repr

/-- The string `value` of a `HumanizeLevel` member. -/
def HumanizeLevel.value : HumanizeLevel → String
  | .off => "off"
  | .light => "light"
  | .moderate => "moderate"
  | .aggressive => "aggressive"
  | .custom => "custom"

/-- `HumanizeConfig` dataclass: master switch, level tag, five bundles. -/
structure HumanizeConfig where
  enabled : Bool := true
  level : HumanizeLevel := .moderate
  mouse : MouseConfig := {}
  keyboard : KeyboardConfig := {}
  scroll : ScrollConfig := {}
  timing : TimingConfig := {}
  exploration : ExplorationConfig := {}
  deriving DecidableEq, Repr

namespace HumanizeConfig

/-- `HumanizeConfig.from_level`. -/
def from_level (level : HumanizeLevel) : HumanizeConfig :=
  match level with
  | .off =>
    { enabled := false
      level := level
      mouse := { enabled := false }
      keyboard := { enabled := false }
      scroll := { enabled := false }
      exploration := { enabled := false } }
  | .light =>
    { enabled := true
      level := level
      mouse := { speed := 1.5, overshoot_chance := 0.08, jitter := 1,
                 trajectory_points := (10, 18) }
      keyboard := { speed := 1.5, keystroke_delay := (50, 120),
                    typo_chance := 0.02, thinking_pause_chance := 0.03 }
      scroll := { speed := 1.5, momentum_enabled := false,
                  overshoot_chance := 0.1, step_delay := (20, 50) }
      timing := { action_delay := (150, 600), page_load_delay := (500, 1500),
                  variance_factor := 0.2 }
      exploration := { enabled := true, intensity := "light",
                       duration := (1.5, 3) } }
  | .moderate =>
    { enabled := true, level := level }
  | .aggressive =>
    { enabled := true
      level := level
      mouse := { speed := 0.7, overshoot_chance := 0.25,
                 overshoot_distance := (10, 40), jitter := 3,
                 click_offset_max := 15, trajectory_points := (25, 45) }
      keyboard := { speed := 0.7, keystroke_delay := (100, 280),
                    typo_chance := 0.08, thinking_pause_chance := 0.12,
                    thinking_pause_duration := (1500, 5000),
                    space_delay := (200, 700) }
      scroll := { speed := 0.6, momentum_enabled := true,
                  momentum_decay := 0.9, overshoot_chance := 0.4,
                  step_delay := (50, 150), reading_pause_chance := 0.45 }
      timing := { action_delay := (500, 2500), page_load_delay := (1500, 4000),
                  thinking_delay := (3000, 8000), variance_factor := 0.4 }
      exploration := { enabled := true, intensity := "thorough",
                       duration := (5, 15), link_hover_chance := 0.35,
                       scroll_chance := 0.8 } }
  | .custom =>
    { enabled := true, level := level }

/-- Plain-dictionary persistence format: the keys `to_dict` emits and
`from_dict` reads.  A `none` field models an absent key, so `from_dict`'s
`.get(key, default)` calls become `Option.getD`. -/
structure Dict where
  enabled : Option Bool := none
  level : Option String := none
  typing_speed : Option String := none
  mouse_speed : Option String := none
  scroll_behavior : Option String := none
  make_typos : Option Bool := none
  typo_rate : Option ℚ := none
  page_exploration_enabled : Option Bool := none
  exploration_intensity : Option String := none
  deriving DecidableEq, Repr

/-- The `speed_map` dictionary lookup in `from_dict` (`.get(s, 1.0)`). -/
def speedMap (sp : String) : ℚ :=
  if sp = "slow" then 0.7 else if sp = "normal" then 1 else
  if sp = "fast" then 1.5 else 1

/-- The `duration_map` dictionary lookup in `from_dict`. -/
def durationMap (intensity : String) : ℚ × ℚ :=
  if intensity = "light" then (1.5, 4) else
  if intensity = "normal" then (3, 8) else
  if intensity = "thorough" then (6, 15) else (3, 8)

/-- `HumanizeConfig.from_dict`. -/
def from_dict (data : Dict) : HumanizeConfig :=
  if !(data.enabled.getD true) then from_level .off
  else
    let mouse_speed := speedMap (data.mouse_speed.getD "normal")
    let typing_speed := speedMap (data.typing_speed.getD "normal")
    let scroll_enabled := data.scroll_behavior.getD "smooth" = "smooth"
    let make_typos := data.make_typos.getD true
    let typo_rate := if make_typos then data.typo_rate.getD 0.05 else 0
    let exploration_enabled := data.page_exploration_enabled.getD true
    let exploration_intensity := data.exploration_intensity.getD "normal"
    let exploration_duration := durationMap exploration_intensity
    { enabled := true
      level := .custom
      mouse := { enabled := true, speed := mouse_speed }
      keyboard := { enabled := true, speed := typing_speed,
                    typo_chance := typo_rate }
      scroll := { enabled := scroll_enabled,
                  momentum_enabled := scroll_enabled }
      timing := {}
      exploration := { enabled := exploration_enabled,
                       intensity := exploration_intensity,
                       duration := exploration_duration } }

/-- The `speed_to_str` bucketing helper inside `to_dict`. -/
def speed_to_str (speed : ℚ) : String :=
  if speed ≤ 0.8 then "slow" else if speed ≥ 1.3 then "fast" else "normal"

/-- `HumanizeConfig.to_dict`. -/
def to_dict (c : HumanizeConfig) : Dict :=
  { enabled := some c.enabled
    level := some c.level.value
    typing_speed := some (speed_to_str c.keyboard.speed)
    mouse_speed := some (speed_to_str c.mouse.speed)
    scroll_behavior := some (if c.scroll.enabled then "smooth" else "instant")
    make_typos := some (decide (c.keyboard.typo_chance > 0))
    typo_rate := some c.keyboard.typo_chance
    page_exploration_enabled := some c.exploration.enabled
    exploration_intensity := some c.exploration.intensity }

end HumanizeConfig

/-! ## Timing engine (`src/humanize/timing.py`) -/

namespace HumanTiming

/-- `HumanTiming._apply_variance` (with the config variance factor already
resolved).  Consumes one gauss draw unless `variance ≤ 0`. -/
def apply_variance (s : Streams) (n : ℕ) (base : ℤ) (variance : ℚ) : ℤ × ℕ :=
  if variance ≤ 0 then (base, n)
  else
    let std_dev := (base : ℚ) * variance
    let result := pyGauss s n (base : ℚ) std_dev
    (max (pyInt ((base : ℚ) * 0.5)) (min (pyInt result) (pyInt ((base : ℚ) * 2))), n + 1)

/-- `HumanTiming.random_delay`.  Returns the delay and the next stream index. -/
def random_delay (s : Streams) (n : ℕ) (min_ms max_ms : ℤ) (distribution : String) :
    ℤ × ℕ :=
  if min_ms ≥ max_ms then (min_ms, n)
  else if distribution = "uniform" then (pyRandint s n min_ms max_ms, n + 1)
  else if distribution = "gaussian" then
    let mean := ((min_ms : ℚ) + (max_ms : ℚ)) / 2
    let std_dev := ((max_ms : ℚ) - (min_ms : ℚ)) / 4
    let result := pyGauss s n mean std_dev
    (max min_ms (min (pyInt result) max_ms), n + 1)
  else if distribution = "triangular" then
    let mode := (min_ms : ℚ) + ((max_ms : ℚ) - (min_ms : ℚ)) * 0.55
    (pyInt (pyTriangular s n (min_ms : ℚ) (max_ms : ℚ) mode), n + 1)
  else if distribution = "exponential" then
    let lam := 2 / ((max_ms : ℚ) - (min_ms : ℚ))
    let result := (min_ms : ℚ) + pyExpo s n lam
    (max min_ms (min (pyInt result) max_ms), n + 1)
  else (pyRandint s n min_ms max_ms, n + 1)

/-- `HumanTiming.action_delay`. -/
def action_delay (cfg : HumanizeConfig) (s : Streams) (n : ℕ) : ℤ × ℕ :=
  if !cfg.enabled then (0, n)
  else
    let (base, n1) := random_delay s n cfg.timing.action_delay.1 cfg.timing.action_delay.2 "triangular"
    apply_variance s n1 base cfg.timing.variance_factor

/-- `HumanTiming.page_load_delay`. -/
def page_load_delay (cfg : HumanizeConfig) (s : Streams) (n : ℕ) : ℤ × ℕ :=
  if !cfg.enabled then (0, n)
  else random_delay s n cfg.timing.page_load_delay.1 cfg.timing.page_load_delay.2 "triangular"

/-- `HumanTiming.thinking_delay`. -/
def thinking_delay (cfg : HumanizeConfig) (s : Streams) (n : ℕ) : ℤ × ℕ :=
  if !cfg.enabled then (0, n)
  else random_delay s n cfg.timing.thinking_delay.1 cfg.timing.thinking_delay.2 "gaussian"

/-- `HumanTiming.micro_delay`. -/
def micro_delay (cfg : HumanizeConfig) (s : Streams) (n : ℕ) : ℤ × ℕ :=
  if !cfg.enabled then (0, n)
  else random_delay s n cfg.timing.micro_delay.1 cfg.timing.micro_delay.2 "uniform"

/-- `HumanTiming.click_hesitation`. -/
def click_hesitation (cfg : HumanizeConfig) (s : Streams) (n : ℕ) : ℤ × ℕ :=
  if !cfg.enabled then (0, n)
  else random_delay s n cfg.timing.click_hesitation.1 cfg.timing.click_hesitation.2 "exponential"

/-- `HumanTiming.pre_type_delay`. -/
def pre_type_delay (cfg : HumanizeConfig) (s : Streams) (n : ℕ) : ℤ × ℕ :=
  if !cfg.enabled then (0, n)
  else random_delay s n cfg.timing.pre_type_delay.1 cfg.timing.pre_type_delay.2 "triangular"

/-- `HumanTiming.keystroke_delay`. -/
def keystroke_delay (cfg : HumanizeConfig) (s : Streams) (n : ℕ) : ℤ × ℕ :=
  if !cfg.enabled || !cfg.keyboard.enabled then (0, n)
  else
    let (base, n1) := random_delay s n cfg.keyboard.keystroke_delay.1 cfg.keyboard.keystroke_delay.2 "triangular"
    let speed := cfg.keyboard.speed
    (if speed > 0 then pyInt ((base : ℚ) / speed) else base, n1)

/-- `HumanTiming.complex_char_delay`. -/
def complex_char_delay (cfg : HumanizeConfig) (s : Streams) (n : ℕ) : ℤ × ℕ :=
  if !cfg.enabled || !cfg.keyboard.enabled then (0, n)
  else random_delay s n cfg.keyboard.complex_char_delay.1 cfg.keyboard.complex_char_delay.2 "gaussian"

/-- `HumanTiming.mouse_step_delay`. -/
def mouse_step_delay (cfg : HumanizeConfig) (s : Streams) (n : ℕ) : ℤ × ℕ :=
  if !cfg.enabled || !cfg.mouse.enabled then (0, n)
  else
    let (base, n1) := random_delay s n cfg.mouse.move_step_delay.1 cfg.mouse.move_step_delay.2 "uniform"
    let speed := cfg.mouse.speed
    (if speed > 0 then pyInt ((base : ℚ) / speed) else base, n1)

/-- `HumanTiming.scroll_step_delay`. -/
def scroll_step_delay (cfg : HumanizeConfig) (s : Streams) (n : ℕ) : ℤ × ℕ :=
  if !cfg.enabled || !cfg.scroll.enabled then (0, n)
  else
    let (base, n1) := random_delay s n cfg.scroll.step_delay.1 cfg.scroll.step_delay.2 "uniform"
    let speed := cfg.scroll.speed
    (if speed > 0 then pyInt ((base : ℚ) / speed) else base, n1)

/-- `HumanTiming.reading_pause`. -/
def reading_pause (cfg : HumanizeConfig) (s : Streams) (n : ℕ) : ℤ × ℕ :=
  if !cfg.enabled || !cfg.scroll.enabled then (0, n)
  else random_delay s n cfg.scroll.reading_pause_duration.1 cfg.scroll.reading_pause_duration.2 "gaussian"

/-- `HumanTiming.should_thinking_pause`. -/
def should_thinking_pause (cfg : HumanizeConfig) (s : Streams) (n : ℕ) : Bool × ℕ :=
  if !cfg.enabled || !cfg.keyboard.enabled then (false, n)
  else (decide (s.unit n < cfg.keyboard.thinking_pause_chance), n + 1)

/-- `HumanTiming.should_reading_pause`. -/
def should_reading_pause (cfg : HumanizeConfig) (s : Streams) (n : ℕ) : Bool × ℕ :=
  if !cfg.enabled || !cfg.scroll.enabled then (false, n)
  else (decide (s.unit n < cfg.scroll.reading_pause_chance), n + 1)

/-- `HumanTiming.should_typo`. -/
def should_typo (cfg : HumanizeConfig) (s : Streams) (n : ℕ) : Bool × ℕ :=
  if !cfg.enabled || !cfg.keyboard.enabled then (false, n)
  else (decide (s.unit n < cfg.keyboard.typo_chance), n + 1)

/-- `HumanTiming.should_overshoot_mouse`. -/
def should_overshoot_mouse (cfg : HumanizeConfig) (s : Streams) (n : ℕ) : Bool × ℕ :=
  if !cfg.enabled || !cfg.mouse.enabled then (false, n)
  else (decide (s.unit n < cfg.mouse.overshoot_chance), n + 1)

/-- `HumanTiming.should_overshoot_scroll`. -/
def should_overshoot_scroll (cfg : HumanizeConfig) (s : Streams) (n : ℕ) : Bool × ℕ :=
  if !cfg.enabled || !cfg.scroll.enabled then (false, n)
  else (decide (s.unit n < cfg.scroll.overshoot_chance), n + 1)

/-- `HumanTiming.get_typing_thinking_pause`. -/
def get_typing_thinking_pause (cfg : HumanizeConfig) (s : Streams) (n : ℕ) : ℤ × ℕ :=
  if !cfg.enabled || !cfg.keyboard.enabled then (0, n)
  else random_delay s n cfg.keyboard.thinking_pause_duration.1 cfg.keyboard.thinking_pause_duration.2 "gaussian"

/-- `HumanTiming.get_typo_realize_delay`. -/
def get_typo_realize_delay (cfg : HumanizeConfig) (s : Streams) (n : ℕ) : ℤ × ℕ :=
  if !cfg.enabled || !cfg.keyboard.enabled then (0, n)
  else random_delay s n cfg.keyboard.typo_realize_delay.1 cfg.keyboard.typo_realize_delay.2 "triangular"

/-- `HumanTiming.get_typo_correct_delay`. -/
def get_typo_correct_delay (cfg : HumanizeConfig) (s : Streams) (n : ℕ) : ℤ × ℕ :=
  if !cfg.enabled || !cfg.keyboard.enabled then (0, n)
  else random_delay s n cfg.keyboard.typo_correct_delay.1 cfg.keyboard.typo_correct_delay.2 "uniform"

/-- `HumanTiming.get_space_delay`. -/
def get_space_delay (cfg : HumanizeConfig) (s : Streams) (n : ℕ) : ℤ × ℕ :=
  if !cfg.enabled || !cfg.keyboard.enabled then (0, n)
  else random_delay s n cfg.keyboard.space_delay.1 cfg.keyboard.space_delay.2 "triangular"

/-- `HumanTiming.get_key_hold_time`.  Note the disabled branch returns the
fixed default `50`, not `0`. -/
def get_key_hold_time (cfg : HumanizeConfig) (s : Streams) (n : ℕ) : ℤ × ℕ :=
  if !cfg.enabled || !cfg.keyboard.enabled then (50, n)
  else random_delay s n cfg.keyboard.key_hold_time.1 cfg.keyboard.key_hold_time.2 "uniform"

end HumanTiming

/-! ## Mouse trajectory generator (`src/humanize/mouse.py`) -/

/-- 2-D point (`Point` dataclass). -/
structure Point where
  x : ℚ
  y : ℚ
  deriving DecidableEq, Repr

/-- The squared Euclidean distance; `Point.distance_to` is `o.sq` of this. -/
def Point.distSq (a b : Point) : ℚ := (a.x - b.x) ^ 2 + (a.y - b.y) ^ 2

namespace WindMouse

/-- Mutable loop state of `WindMouse.generate_path`: current position, wind
vector and velocity vector. -/
structure WState where
  cur : Point
  windX : ℚ
  windY : ℚ
  velX : ℚ
  velY : ℚ
  deriving DecidableEq, Repr

/-- One iteration of the `WindMouse.generate_path` loop body (after the
`distance < 1` check): computes the appended `(point, delay)` pair and the new
loop state.  Consumes two unit draws (`wind_x`, `wind_y`). -/
def step (o : Oracles) (s : Streams) (gravity wind min_wait max_wait max_step target_area : ℚ)
    (endP : Point) (n : ℕ) (st : WState) : (Point × ℚ) × WState :=
  let distance := o.sq (st.cur.distSq endP)
  let w := if distance < target_area then wind * (distance / target_area) else wind
  let g := if distance < target_area then gravity * (distance / target_area) else gravity
  let wind_x := st.windX / o.sq 3 + (s.unit n * (w * 2 + 1) - w) / o.sq 5
  let wind_y := st.windY / o.sq 3 + (s.unit (n + 1) * (w * 2 + 1) - w) / o.sq 5
  let direction_x := if distance > 0 then (endP.x - st.cur.x) / distance else 0
  let direction_y := if distance > 0 then (endP.y - st.cur.y) / distance else 0
  let velocity_x := st.velX + wind_x + g * direction_x
  let velocity_y := st.velY + wind_y + g * direction_y
  let velocity_mag := o.sq (velocity_x ^ 2 + velocity_y ^ 2)
  let scaled := if velocity_mag > max_step then
      (velocity_x * (max_step / velocity_mag), velocity_y * (max_step / velocity_mag), max_step)
    else (velocity_x, velocity_y, velocity_mag)
  let reduced := if scaled.2.2 > distance then
      ((endP.x - st.cur.x) * 0.9, (endP.y - st.cur.y) * 0.9)
    else (scaled.1, scaled.2.1)
  let current := Point.mk (st.cur.x + reduced.1) (st.cur.y + reduced.2)
  let step_size := o.sq (reduced.1 ^ 2 + reduced.2 ^ 2)
  let delay := if step_size > 0 then min_wait + (max_wait - min_wait) * (step_size / max_step)
    else min_wait
  ((current, delay), ⟨current, wind_x, wind_y, reduced.1, reduced.2⟩)

/-- The `while True` loop of `WindMouse.generate_path`, as structural
recursion on the number of appends still allowed before the 2000-point safety
cap: the Python loop appends one point per iteration and breaks once the path
holds more than 2000 points, so with an initial path of length 1 at most 2000
appends happen and the initial `cap` is `1999` (the `cap = 0` call performs
the 2000-th, final allowed append).  Returns the appended points and the next
stream index. -/
def loopAux (o : Oracles) (s : Streams) (gravity wind min_wait max_wait max_step target_area : ℚ)
    (endP : Point) : ℕ → ℕ → WState → List (Point × ℚ) × ℕ
  | 0, n, st =>
    if o.sq (st.cur.distSq endP) < 1 then ([], n)
    else
      let r := step o s gravity wind min_wait max_wait max_step target_area endP n st
      ([r.1], n + 2)
  | cap + 1, n, st =>
    if o.sq (st.cur.distSq endP) < 1 then ([], n)
    else
      let r := step o s gravity wind min_wait max_wait max_step target_area endP n st
      let rest := loopAux o s gravity wind min_wait max_wait max_step target_area endP cap (n + 2) r.2
      (r.1 :: rest.1, rest.2)

/-- `WindMouse.generate_path`: initial `(start, 0)` entry, the loop, and the
unconditional final `(end, min_wait)` append. -/
def generate_path (o : Oracles) (s : Streams) (n : ℕ) (start endP : Point)
    (gravity wind min_wait max_wait max_step target_area : ℚ) :
    List (Point × ℚ) × ℕ :=
  let r := loopAux o s gravity wind min_wait max_wait max_step target_area endP 1999 n
    ⟨⟨start.x, start.y⟩, 0, 0, 0, 0⟩
  ((start, 0) :: (r.1 ++ [(endP, min_wait)]), r.2)

end WindMouse

namespace FittsLaw

/-- `FittsLaw.movement_time`; `math.log2` is the oracle `o.lg`. -/
def movement_time (o : Oracles) (distance target_width : ℚ) : ℚ :=
  let tw := if target_width ≤ 0 then 1 else target_width
  if distance ≤ 0 then 50
  else 50 + 150 * o.lg (distance / tw + 1)

/-- `FittsLaw.steps_for_movement`. -/
def steps_for_movement (o : Oracles) (distance target_width : ℚ) : ℤ :=
  let mt := movement_time o distance target_width
  let steps := pyInt (mt / 12)
  max 10 (min steps 100)

end FittsLaw

namespace HumanMouse

/-- `HumanMouse._add_jitter`.  Consumes two unit draws unless the configured
jitter amplitude is `≤ 0` (then the point is returned untouched, no draws). -/
def add_jitter (mc : MouseConfig) (s : Streams) (n : ℕ) (p : Point) : Point × ℕ :=
  if mc.jitter ≤ 0 then (p, n)
  else
    let j := (mc.jitter : ℚ)
    (⟨p.x + pyUniform s n (-j) j, p.y + pyUniform s (n + 1) (-j) j⟩, n + 2)

/-- The `for point, delay in path` jitter loop at the end of
`HumanMouse._generate_trajectory`. -/
def jitter_path (mc : MouseConfig) (s : Streams) (n : ℕ) :
    List (Point × ℚ) → List (Point × ℚ) × ℕ
  | [] => ([], n)
  | (p, d) :: rest =>
    let r := add_jitter mc s n p
    let rr := jitter_path mc s r.2 rest
    ((r.1, d) :: rr.1, rr.2)

/-- `HumanMouse._generate_trajectory`.  The Fitts's-Law movement time and step
count are computed (and speed-adjusted) exactly as in the source, where their
values are then unused: the returned path is the jittered WindMouse path. -/
def generate_trajectory (mc : MouseConfig) (o : Oracles) (s : Streams) (n : ℕ)
    (start endP : Point) (target_width : ℚ) : List (Point × ℚ) × ℕ :=
  let distance := o.sq (start.distSq endP)
  let movement_time := FittsLaw.movement_time o distance target_width
  let num_steps := FittsLaw.steps_for_movement o distance target_width
  let speed := mc.speed
  let movement_time := if speed > 0 then movement_time / speed else movement_time
  let num_steps := if speed > 0 then pyInt ((num_steps : ℚ) / speed) else num_steps
  let _unused := (movement_time, max 10 (min num_steps 100))
  let path := WindMouse.generate_path o s n start endP mc.wind_gravity mc.wind_wind
    mc.wind_min_wait mc.wind_max_wait mc.wind_max_step mc.wind_target_area
  jitter_path mc s path.2 path.1

end HumanMouse

/-! ## Browser-interaction traces

The engines drive an external Playwright page.  Each page-level primitive the
code invokes is recorded as an `Event`; an operation's observable behavior is
its boolean result together with its event trace. -/

/-- One page-level action issued by an engine. -/
inductive Event where
  | mouseMove (x y : ℚ)
  | mouseDown (button : String)
  | mouseUp (button : String)
  | sleep (ms : ℚ)
  | press (key : String) (hold : ℚ)
  | elemClick
  | fillField (text : String)
  | stdClick
  deriving DecidableEq, Repr

/-- `HumanTiming.delay(ms)`: suspends only for a positive duration
(`if ms <= 0: return`). -/
def delayEvents (ms : ℚ) : List Event :=
  if ms > 0 then [Event.sleep ms] else []

/-- Environment of one mouse operation: the element lookup result
(`_get_element_bounds`, `none` = target not found) and the position
`_get_current_position` reports. -/
structure Box where
  x : ℚ
  y : ℚ
  width : ℚ
  height : ℚ
  deriving DecidableEq, Repr

/-- Page environment seen by a single mouse operation. -/
structure MouseEnv where
  bounds : Option Box
  current : Point
  deriving DecidableEq, Repr

namespace HumanMouse

/-- `HumanMouse._get_click_offset`: Gaussian offset from the element center,
clamped to the box minus a 2-pixel margin.  Consumes two gauss draws. -/
def get_click_offset (mc : MouseConfig) (s : Streams) (n : ℕ) (box : Box) : Point × ℕ :=
  let max_offset := (mc.click_offset_max : ℚ)
  let offset_x := pyGauss s n 0 (max_offset / 2)
  let offset_y := pyGauss s (n + 1) 0 (max_offset / 2)
  let max_x := box.width / 2 - 2
  let max_y := box.height / 2 - 2
  let ox := max (-max_x) (min offset_x max_x)
  let oy := max (-max_y) (min offset_y max_y)
  (⟨box.x + box.width / 2 + ox, box.y + box.height / 2 + oy⟩, n + 2)

/-- `HumanMouse._execute_movement`: generate the trajectory, then for each
point a `mouse.move` followed by a sleep when its delay is positive. -/
def execute_movement (cfg : HumanizeConfig) (o : Oracles) (s : Streams) (n : ℕ)
    (start endP : Point) (target_width : ℚ) : List Event × ℕ :=
  let traj := generate_trajectory cfg.mouse o s n start endP target_width
  (traj.1.flatMap (fun pd => Event.mouseMove pd.1.x pd.1.y :: delayEvents pd.2), traj.2)

/-- `HumanMouse.move_to` (without an explicit caller offset, as `click` uses
it): short-circuits to success when the module is disabled; fails with an
empty trace when the element is not found; otherwise moves — directly, or
with an overshoot-and-correct pair of movements. -/
def move_to (cfg : HumanizeConfig) (env : MouseEnv) (o : Oracles) (s : Streams)
    (n : ℕ) : Bool × List Event × ℕ :=
  if !cfg.enabled || !cfg.mouse.enabled then (true, [], n)
  else
    match env.bounds with
    | none => (false, [], n)
    | some box =>
      let start := env.current
      let t := get_click_offset cfg.mouse s n box
      let target := t.1
      let ov := HumanTiming.should_overshoot_mouse cfg s t.2
      if ov.1 then
        let od := pyRandint s ov.2 cfg.mouse.overshoot_distance.1 cfg.mouse.overshoot_distance.2
        let dir := pyUniform s (ov.2 + 1) 0 (2 * o.piQ)
        let overshoot_target : Point :=
          ⟨target.x + o.cosQ dir * (od : ℚ), target.y + o.sinQ dir * (od : ℚ)⟩
        let m1 := execute_movement cfg o s (ov.2 + 2) start overshoot_target box.width
        let md := HumanTiming.micro_delay cfg s m1.2
        let m2 := execute_movement cfg o s md.2 overshoot_target target box.width
        (true, m1.1 ++ delayEvents (md.1 : ℚ) ++ m2.1, m2.2)
      else
        let m1 := execute_movement cfg o s ov.2 start target box.width
        (true, m1.1, m1.2)

/-- `HumanMouse.click`: fallback standard click when disabled (modelled as a
single `stdClick` that fails exactly when the target cannot be resolved);
otherwise move, hesitate, and press-hold-release the button. -/
def click (cfg : HumanizeConfig) (env : MouseEnv) (o : Oracles) (s : Streams)
    (n : ℕ) (button : String) : Bool × List Event × ℕ :=
  if !cfg.enabled || !cfg.mouse.enabled then
    (if env.bounds.isSome then (true, [Event.stdClick], n) else (false, [], n))
  else
    let m := move_to cfg env o s n
    if !m.1 then (false, m.2.1, m.2.2)
    else
      let ch := HumanTiming.click_hesitation cfg s m.2.2
      let ht := HumanTiming.get_key_hold_time cfg s ch.2
      (true,
        m.2.1 ++ delayEvents (ch.1 : ℚ) ++
          (Event.mouseDown button :: delayEvents (ht.1 : ℚ)) ++ [Event.mouseUp button],
        ht.2)

end HumanMouse

/-! ## Keystroke generator (`src/humanize/keyboard.py`) -/

/-- `COMPLEX_CHARS` (punctuation/symbol set). -/
def COMPLEX_CHARS : List Char :=
  "@#$%^&*()_+-=\x7b\x7d[]|\\:\";\x27<>,.?/~`".toList

/-- `NUMBER_CHARS`. -/
def NUMBER_CHARS : List Char := "0123456789".toList

/-- `string.ascii_lowercase`, the fallback alphabet of `get_adjacent_key`. -/
def asciiLowercase : List Char := "abcdefghijklmnopqrstuvwxyz".toList

/-- `QWERTY_NEIGHBORS`: physical-adjacency table (lower-case keys only). -/
def QWERTY_NEIGHBORS : Char → Option (List Char)
  | 'q' => some "wa12".toList
  | 'w' => some "qeas23".toList
  | 'e' => some "wdrs34".toList
  | 'r' => some "etfs45".toList
  | 't' => some "rygd56".toList
  | 'y' => some "tuhf67".toList
  | 'u' => some "yijg78".toList
  | 'i' => some "uokh89".toList
  | 'o' => some "iplj90".toList
  | 'p' => some "ol0-[".toList
  | 'a' => some "qwsz".toList
  | 's' => some "awedxz".toList
  | 'd' => some "swerfxc".toList
  | 'f' => some "dertgcv".toList
  | 'g' => some "frtyhvb".toList
  | 'h' => some "gtyujbn".toList
  | 'j' => some "hyuiknm".toList
  | 'k' => some "juiolm,".toList
  | 'l' => some "kiop;.,".toList
  | 'z' => some "asx".toList
  | 'x' => some "zsdc".toList
  | 'c' => some "xdfv".toList
  | 'v' => some "cfgb".toList
  | 'b' => some "vghn".toList
  | 'n' => some "bhjm".toList
  | 'm' => some "njk,".toList
  | '1' => some "2q`".toList
  | '2' => some "13qw".toList
  | '3' => some "24we".toList
  | '4' => some "35er".toList
  | '5' => some "46rt".toList
  | '6' => some "57ty".toList
  | '7' => some "68yu".toList
  | '8' => some "79ui".toList
  | '9' => some "80io".toList
  | '0' => some "9-op".toList
  | ' ' => some " ".toList
  | '.' => some ",l;/".toList
  | ',' => some "mkl.".toList
  | '/' => some ".;\x27".toList
  | _ => none

/-- `COMMON_TYPO_PATTERNS`. -/
def COMMON_TYPO_PATTERNS : List String :=
  ["double_letter", "missing_letter", "adjacent_key", "transposition", "extra_letter"]

namespace TypoGenerator

/-- `TypoGenerator.get_adjacent_key`: a random QWERTY neighbor of the key
(case preserved), or a random lowercase letter when the key is unknown.
Consumes one unit draw. -/
def get_adjacent_key (s : Streams) (n : ℕ) (c : Char) : Char × ℕ :=
  match QWERTY_NEIGHBORS c.toLower with
  | some neighbors =>
    let wrong := pyChoice s n neighbors 'a'
    ((if c.isUpper then wrong.toUpper else wrong), n + 1)
  | none => (pyChoice s n asciiLowercase 'a', n + 1)

/-- `TypoGenerator.generate_typo`: uniform choice among the five patterns of
`COMMON_TYPO_PATTERNS`, returning `(typo_type, wrong_characters)`.  This is
the five-pattern generator of the source; `HumanKeyboard._make_typo` does not
call it. -/
def generate_typo (s : Streams) (n : ℕ) (text : List Char) (position : ℕ) :
    (String × String) × ℕ :=
  if position ≥ text.length then
    let r := get_adjacent_key s n 'a'
    (("adjacent_key", String.singleton r.1), r.2)
  else
    let current_char := text.getD position 'a'
    let typo_type := pyChoice s n COMMON_TYPO_PATTERNS ""
    if typo_type = "double_letter" then (("double", String.singleton current_char), n + 1)
    else if typo_type = "missing_letter" then (("skip", ""), n + 1)
    else if typo_type = "adjacent_key" then
      let r := get_adjacent_key s (n + 1) current_char
      (("adjacent", String.singleton r.1), r.2)
    else if typo_type = "transposition" then (("transpose", ""), n + 1)
    else if typo_type = "extra_letter" then
      let r := get_adjacent_key s (n + 1) current_char
      (("extra", String.singleton r.1), r.2)
    else
      let r := get_adjacent_key s (n + 1) current_char
      (("adjacent", String.singleton r.1), r.2)

end TypoGenerator

namespace HumanKeyboard

/-- Page environment of a keyboard operation: whether the target element can
be resolved (a missing element makes `element.click()` raise, which the code
catches and reports as `False`). -/
structure KbEnv where
  found : Bool
  deriving DecidableEq, Repr

/-- `HumanKeyboard._is_complex_char`. -/
def is_complex_char (c : Char) : Bool :=
  c ∈ COMPLEX_CHARS || c ∈ NUMBER_CHARS || c.isUpper

/-- `HumanKeyboard._get_char_delay`: complexity-dependent delay with a 20%
same-finger penalty when the previous character repeats. -/
def get_char_delay (cfg : HumanizeConfig) (s : Streams) (n : ℕ)
    (c : Char) (prev_char : Option Char) : ℤ × ℕ :=
  let d := if is_complex_char c then HumanTiming.complex_char_delay cfg s n
    else HumanTiming.keystroke_delay cfg s n
  match prev_char with
  | some p => (if p.toLower = c.toLower then pyInt ((d.1 : ℚ) * 1.2) else d.1, d.2)
  | none => d

/-- `HumanKeyboard._type_char`: one key press with a sampled hold time. -/
def type_char (cfg : HumanizeConfig) (s : Streams) (n : ℕ) (c : Char) :
    List Event × ℕ :=
  let ht := HumanTiming.get_key_hold_time cfg s n
  ([Event.press (String.singleton c) (ht.1 : ℚ)], ht.2)

/-- `HumanKeyboard._make_typo`: type an adjacent-key wrong character, pause
(realize), backspace, pause (before correction).  The correct character is
typed afterwards by the `type_text` loop. -/
def make_typo (cfg : HumanizeConfig) (s : Streams) (n : ℕ) (correct_char : Char) :
    List Event × ℕ :=
  let w := TypoGenerator.get_adjacent_key s n correct_char
  let e1 := type_char cfg s w.2 w.1
  let rd := HumanTiming.get_typo_realize_delay cfg s e1.2
  let cd := HumanTiming.get_typo_correct_delay cfg s rd.2
  (e1.1 ++ delayEvents (rd.1 : ℚ) ++ (Event.press "Backspace" 0 :: delayEvents (cd.1 : ℚ)),
    cd.2)

/-- The character loop of `HumanKeyboard.type_text`: per character, a
thinking-pause window check (`randint(5,15)` then, only when the window is
reached, a Bernoulli draw), a typo draw (the typo executes only for
alphabetic characters), the keystroke itself, the character delay, and an
extra delay after a space. -/
def type_loop (cfg : HumanizeConfig) (s : Streams) :
    List Char → Option Char → ℕ → ℕ → List Event × ℕ
  | [], _, _, n => ([], n)
  | c :: rest, prev_char, chars_since_pause, n =>
    let csp := chars_since_pause + 1
    let window := pyRandint s n 5 15
    let afterWin :=
      if (csp : ℤ) ≥ window then
        let stp := HumanTiming.should_thinking_pause cfg s (n + 1)
        if stp.1 then
          let tp := HumanTiming.get_typing_thinking_pause cfg s stp.2
          (delayEvents (tp.1 : ℚ), 0, tp.2)
        else (([] : List Event), csp, stp.2)
      else (([] : List Event), csp, n + 1)
    let ty := HumanTiming.should_typo cfg s afterWin.2.2
    let typoEv := if ty.1 && c.isAlpha then make_typo cfg s ty.2 c else ([], ty.2)
    let chEv := type_char cfg s typoEv.2 c
    let cd := get_char_delay cfg s chEv.2 c prev_char
    let spEv := if c = ' ' then
        let sd := HumanTiming.get_space_delay cfg s cd.2
        (delayEvents (sd.1 : ℚ), sd.2)
      else ([], cd.2)
    let restEv := type_loop cfg s rest (some c) afterWin.2.1 spEv.2
    (afterWin.1 ++ typoEv.1 ++ chEv.1 ++ delayEvents (cd.1 : ℚ) ++ spEv.1 ++ restEv.1,
      restEv.2)

/-- `HumanKeyboard.type_text`: empty text succeeds immediately; when the
module is disabled the element is filled directly; otherwise focus-click,
optional clear, pre-typing pause, then the character loop. -/
def type_text (cfg : HumanizeConfig) (env : KbEnv) (s : Streams)
    (text : List Char) (clear_first : Bool) (n : ℕ) : Bool × List Event × ℕ :=
  if text = [] then (true, [], n)
  else if !cfg.enabled || !cfg.keyboard.enabled then
    (if env.found then (true, [Event.fillField (String.mk text)], n) else (false, [], n))
  else if !env.found then (false, [], n)
  else
    let clearEv := if clear_first then [Event.fillField ""] else ([] : List Event)
    let ptd := HumanTiming.pre_type_delay cfg s n
    let body := type_loop cfg s text none 0 ptd.2
    (true, Event.elemClick :: clearEv ++ delayEvents (ptd.1 : ℚ) ++ body.1, body.2)

/-- `HumanKeyboard.should_paste_instead`: `0.0` paste chance (Python falsy)
or short text return `False` with no draw; URL/email-shaped text doubles the
configured probability. -/
def should_paste_instead (cfg : HumanizeConfig) (s : Streams) (n : ℕ)
    (text : String) : Bool × ℕ :=
  if cfg.keyboard.paste_chance_for_long_text = 0 then (false, n)
  else if (text.length : ℤ) < cfg.keyboard.paste_threshold_length then (false, n)
  else
    let is_url_or_email :=
      text.startsWith "http://" || text.startsWith "https://" ||
        (text.contains '@' && text.contains '.')
    if is_url_or_email then
      (decide (s.unit n < cfg.keyboard.paste_chance_for_long_text * 2), n + 1)
    else
      (decide (s.unit n < cfg.keyboard.paste_chance_for_long_text), n + 1)

end HumanKeyboard

/-! ## Scroll physics (`src/humanize/scroll.py`) -/

namespace ScrollPhysics

/-- The `while remaining > 0 and velocity > min_velocity` loop of
`calculate_momentum_steps`, as structural recursion on an explicit fuel.
The fuel is a modelling device only: `momentumAux_stable` below shows that
once the decayed velocity has fallen below the floor the result no longer
depends on the fuel, and for the parameters the claims use the hard-coded
fuel of `calculate_momentum_steps` is far beyond that point, so the model
computes exactly what the unbounded Python loop does.  Returns the emitted
steps and the final `remaining`. -/
def momentumAux (friction min_velocity direction : ℚ) (s : Streams) :
    ℕ → ℕ → ℚ → ℚ → List (ℚ × ℚ) × ℚ
  | 0, _, remaining, _ => ([], remaining)
  | fuel + 1, n, remaining, velocity =>
    if remaining > 0 ∧ velocity > min_velocity then
      let step := min velocity remaining
      let r := momentumAux friction min_velocity direction s fuel (n + 1)
        (remaining - step) (velocity * friction)
      ((step * direction, 30 + (pyRandint s n 0 20 : ℚ)) :: r.1, r.2)
    else ([], remaining)

/-- `ScrollPhysics.calculate_momentum_steps`: momentum-decay steps plus a
final corrective step to land exactly on the target. -/
def calculate_momentum_steps (s : Streams) (n : ℕ)
    (distance : ℚ) (initial_velocity : ℚ := 50) (friction : ℚ := 0.85)
    (min_velocity : ℚ := 2) : List (ℚ × ℚ) :=
  let remaining := |distance|
  let direction : ℚ := if distance > 0 then 1 else -1
  let r := momentumAux friction min_velocity direction s 10000 n remaining initial_velocity
  if r.2 > 0 then r.1 ++ [(r.2 * direction, 50)] else r.1

end ScrollPhysics

/-! ## Shared concrete instances used by witnesses and counterexamples -/

/-- All-zero draw streams. -/
def sZero : Streams := ⟨fun _ => 0, fun _ => 0, fun _ => 0, fun _ => 0⟩

/-- Constant one-half unit draws (all other draws zero). -/
def sHalf : Streams := ⟨fun _ => 1/2, fun _ => 0, fun _ => 0, fun _ => 0⟩

/-- Constant three-quarters unit draws (all other draws zero). -/
def sQ34 : Streams := ⟨fun _ => 3/4, fun _ => 0, fun _ => 0, fun _ => 0⟩

/-- Unit draws that put the typo-decision draw of a one-character
`type_text` call started at index 0 below every positive typo chance. -/
def sTypo : Streams := ⟨fun k => if k = 2 then 0 else 1/2, fun _ => 0, fun _ => 0, fun _ => 0⟩

/-- The all-zero oracle (in particular `sq 0 = 0`, the only value the
degenerate concrete runs below consult). -/
def oracle0 : Oracles := ⟨fun _ => 0, fun _ => 0, fun _ => 0, fun _ => 0, 0⟩

/-- The MODERATE preset (the engine defaults). -/
def moderateConfig : HumanizeConfig := HumanizeConfig.from_level .moderate

/-- The OFF preset. -/
def offConfig : HumanizeConfig := HumanizeConfig.from_level .off

/-- Defaults with only the keyboard module disabled. -/
def kbOffConfig : HumanizeConfig := { keyboard := { enabled := false } }

/-! ## Arithmetic helper lemmas -/

/-- `pyInt` respects integer lower bounds. -/
lemma le_pyInt {a : ℤ} {q : ℚ} (h : (a : ℚ) ≤ q) : a ≤ pyInt q := by
  unfold pyInt
  split
  · exact Int.le_floor.mpr h
  · exact_mod_cast h.trans (Int.le_ceil q)

/-- `pyInt` respects integer upper bounds. -/
lemma pyInt_le {b : ℤ} {q : ℚ} (h : q ≤ (b : ℚ)) : pyInt q ≤ b := by
  unfold pyInt
  split
  · exact_mod_cast (Int.floor_le q).trans h
  · exact Int.ceil_le.mpr h

/-- `pyRandint` stays within `[a, b]` when the unit draw is in `[0, 1)`. -/
lemma pyRandint_bounds (s : Streams) (n : ℕ) {a b : ℤ} (hab : a ≤ b)
    (hu0 : 0 ≤ s.unit n) (hu1 : s.unit n < 1) :
    a ≤ pyRandint s n a b ∧ pyRandint s n a b ≤ b := by
  have habq : (a : ℚ) ≤ (b : ℚ) := by exact_mod_cast hab
  have hL : (0 : ℚ) < (b : ℚ) - (a : ℚ) + 1 := by linarith
  have h1 : (0 : ℤ) ≤ ⌊s.unit n * ((b : ℚ) - (a : ℚ) + 1)⌋ :=
    Int.le_floor.mpr (by simpa using mul_nonneg hu0 hL.le)
  have h2 : ⌊s.unit n * ((b : ℚ) - (a : ℚ) + 1)⌋ < b - a + 1 := by
    apply Int.floor_lt.mpr
    push_cast
    nlinarith
  unfold pyRandint
  omega

/-- A clamp `max a (min x b)` lands in `[a, b]` whenever `a ≤ b`. -/
lemma clamp_bounds {a b x : ℤ} (hab : a ≤ b) :
    a ≤ max a (min x b) ∧ max a (min x b) ≤ b := ⟨le_max_left a _, by omega⟩

/-! ## C3: the global kill switch -/

/-- C3: every category delay function returns 0 and every Boolean decision
function returns false whenever the master switch is off; the keyboard-,
mouse- and scroll-owned ones do so already when just their own module is
disabled (the six delays bound to `TimingConfig` are governed by the master
switch alone, which has no separate module flag). -/
theorem disabled_kill_switch_zeros (cfg : HumanizeConfig) (s : Streams) (n : ℕ) :
    (cfg.enabled = false →
      HumanTiming.action_delay cfg s n = (0, n) ∧
      HumanTiming.page_load_delay cfg s n = (0, n) ∧
      HumanTiming.thinking_delay cfg s n = (0, n) ∧
      HumanTiming.micro_delay cfg s n = (0, n) ∧
      HumanTiming.click_hesitation cfg s n = (0, n) ∧
      HumanTiming.pre_type_delay cfg s n = (0, n) ∧
      HumanTiming.keystroke_delay cfg s n = (0, n) ∧
      HumanTiming.complex_char_delay cfg s n = (0, n) ∧
      HumanTiming.mouse_step_delay cfg s n = (0, n) ∧
      HumanTiming.scroll_step_delay cfg s n = (0, n) ∧
      HumanTiming.reading_pause cfg s n = (0, n) ∧
      HumanTiming.should_typo cfg s n = (false, n) ∧
      HumanTiming.should_overshoot_mouse cfg s n = (false, n) ∧
      HumanTiming.should_overshoot_scroll cfg s n = (false, n) ∧
      HumanTiming.should_thinking_pause cfg s n = (false, n) ∧
      HumanTiming.should_reading_pause cfg s n = (false, n)) ∧
    (cfg.keyboard.enabled = false →
      HumanTiming.keystroke_delay cfg s n = (0, n) ∧
      HumanTiming.complex_char_delay cfg s n = (0, n) ∧
      HumanTiming.should_typo cfg s n = (false, n) ∧
      HumanTiming.should_thinking_pause cfg s n = (false, n)) ∧
    (cfg.mouse.enabled = false →
      HumanTiming.mouse_step_delay cfg s n = (0, n) ∧
      HumanTiming.should_overshoot_mouse cfg s n = (false, n)) ∧
    (cfg.scroll.enabled = false →
      HumanTiming.scroll_step_delay cfg s n = (0, n) ∧
      HumanTiming.reading_pause cfg s n = (0, n) ∧
      HumanTiming.should_overshoot_scroll cfg s n = (false, n) ∧
      HumanTiming.should_reading_pause cfg s n = (false, n)) := by
  refine ⟨fun h => ?_, fun h => ?_, fun h => ?_, fun h => ?_⟩ <;>
    simp [HumanTiming.action_delay, HumanTiming.page_load_delay,
      HumanTiming.thinking_delay, HumanTiming.micro_delay,
      HumanTiming.click_hesitation, HumanTiming.pre_type_delay,
      HumanTiming.keystroke_delay, HumanTiming.complex_char_delay,
      HumanTiming.mouse_step_delay, HumanTiming.scroll_step_delay,
      HumanTiming.reading_pause, HumanTiming.should_typo,
      HumanTiming.should_overshoot_mouse, HumanTiming.should_overshoot_scroll,
      HumanTiming.should_thinking_pause, HumanTiming.should_reading_pause, h]

/-- Witness for C3 at the OFF preset and at a config with only the scroll
module disabled. -/
theorem disabled_kill_switch_zeros_inst :
    HumanTiming.action_delay offConfig sHalf 0 = (0, 0) ∧
    HumanTiming.should_typo offConfig sHalf 0 = (false, 0) ∧
    HumanTiming.scroll_step_delay { scroll := { enabled := false } } sHalf 0 = (0, 0) := by
  refine ⟨((disabled_kill_switch_zeros offConfig sHalf 0).1 rfl).1,
    ?_, ((disabled_kill_switch_zeros { scroll := { enabled := false } } sHalf 0).2.2.2 rfl).1⟩
  have h := (disabled_kill_switch_zeros offConfig sHalf 0).1 rfl
  exact h.2.2.2.2.2.2.2.2.2.2.2.1

/-! ## C10: paste chance is always zero -/

/-- C10: every config built by `from_level` or `from_dict` carries the
`KeyboardConfig` default `paste_chance_for_long_text = 0` (neither
constructor ever overrides it), so `should_paste_instead` returns `false`
for every text under every such config. -/
theorem paste_chance_always_zero :
    (∀ l : HumanizeLevel,
      (HumanizeConfig.from_level l).keyboard.paste_chance_for_long_text = 0) ∧
    (∀ d : HumanizeConfig.Dict,
      (HumanizeConfig.from_dict d).keyboard.paste_chance_for_long_text = 0) ∧
    (∀ (l : HumanizeLevel) (s : Streams) (n : ℕ) (text : String),
      HumanKeyboard.should_paste_instead (HumanizeConfig.from_level l) s n text = (false, n)) ∧
    (∀ (d : HumanizeConfig.Dict) (s : Streams) (n : ℕ) (text : String),
      HumanKeyboard.should_paste_instead (HumanizeConfig.from_dict d) s n text = (false, n)) := by
  have hl : ∀ l : HumanizeLevel,
      (HumanizeConfig.from_level l).keyboard.paste_chance_for_long_text = 0 := by
    intro l; cases l <;> rfl
  have hd : ∀ d : HumanizeConfig.Dict,
      (HumanizeConfig.from_dict d).keyboard.paste_chance_for_long_text = 0 := by
    intro d
    unfold HumanizeConfig.from_dict
    split <;> rfl
  refine ⟨hl, hd, fun l s n text => ?_, fun d s n text => ?_⟩
  · simp [HumanKeyboard.should_paste_instead, hl l]
  · simp [HumanKeyboard.should_paste_instead, hd d]

/-! ## C7: `random_delay` range -/

/-- C7 counterexample: the claim quantifies over all `min, max`; at
`min = 5 > 3 = max` the code's degenerate branch returns `min = 5`, which
does not lie in the (empty) interval `[5, 3]`. -/
theorem random_delay_out_of_range_when_min_gt_max :
    ¬((5 : ℤ) ≤ (HumanTiming.random_delay sHalf 0 5 3 "uniform").1 ∧
      (HumanTiming.random_delay sHalf 0 5 3 "uniform").1 ≤ 3) := by decide

/-- C7 as amended: whenever `min ≤ max`, the value `random_delay` returns
lies in `[min, max]` for each of the four distribution kinds.  The stream
hypotheses encode the `random`-library contracts the model abstracts: unit
draws lie in `[0, 1)` and the raw triangular draw lies between its bounds. -/
theorem random_delay_within_bounds (s : Streams) (n : ℕ) (lo hi : ℤ)
    (hle : lo ≤ hi) (hu0 : 0 ≤ s.unit n) (hu1 : s.unit n < 1)
    (ht0 : (lo : ℚ) ≤ s.tri n) (ht1 : s.tri n ≤ (hi : ℚ)) :
    ∀ d ∈ (["uniform", "gaussian", "triangular", "exponential"] : List String),
      lo ≤ (HumanTiming.random_delay s n lo hi d).1 ∧
      (HumanTiming.random_delay s n lo hi d).1 ≤ hi := by
  intro d hd
  by_cases hge : lo ≥ hi
  · simp [HumanTiming.random_delay, hge]
    omega
  fin_cases hd <;>
    simp only [HumanTiming.random_delay, hge, if_false, if_true,
      reduceIte, String.reduceEq]
  · exact pyRandint_bounds s n hle hu0 hu1
  · exact clamp_bounds hle
  · exact ⟨le_pyInt (by simpa [pyTriangular] using ht0),
      pyInt_le (by simpa [pyTriangular] using ht1)⟩
  · exact clamp_bounds hle

/-- Witness for C7 at `min = 100`, `max = 200` with in-contract draws. -/
theorem random_delay_within_bounds_inst :
    (100 : ℤ) ≤ (HumanTiming.random_delay ⟨fun _ => 1/2, fun _ => 0, fun _ => 0, fun _ => 150⟩ 0 100 200 "triangular").1 ∧
    (HumanTiming.random_delay ⟨fun _ => 1/2, fun _ => 0, fun _ => 0, fun _ => 150⟩ 0 100 200 "triangular").1 ≤ 200 :=
  random_delay_within_bounds ⟨fun _ => 1/2, fun _ => 0, fun _ => 0, fun _ => 150⟩ 0 100 200
    (by norm_num) (by norm_num) (by norm_num) (by norm_num) (by norm_num)
    "triangular" (by simp)

/-! ## C5: config dictionary round trip -/

/-- A speed bucket survives the bucket → fixed-multiplier → bucket cycle. -/
lemma speed_bucket_round (q : ℚ) :
    HumanizeConfig.speed_to_str (HumanizeConfig.speedMap (HumanizeConfig.speed_to_str q)) =
      HumanizeConfig.speed_to_str q := by
  unfold HumanizeConfig.speed_to_str HumanizeConfig.speedMap
  by_cases h1 : q ≤ 0.8
  · rw [if_pos h1]
    decide
  · by_cases h2 : q ≥ 1.3
    · rw [if_neg h1, if_pos h2]
      decide
    · rw [if_neg h1, if_neg h2]
      decide

/-- C5 counterexample: at a disabled config with default (enabled) scroll
module, the round trip collapses to the OFF preset and loses the scroll
flag, so the claim fails for this `HumanizeConfig`. -/
theorem config_round_trip_fails_when_disabled :
    (HumanizeConfig.from_dict
        (HumanizeConfig.to_dict { moderateConfig with enabled := false })).scroll.enabled ≠
      ({ moderateConfig with enabled := false } : HumanizeConfig).scroll.enabled := by
  decide

/-- C5 as amended: for every config whose master switch is on,
`from_dict (to_dict c)` preserves the effective speed buckets of the mouse
and keyboard multipliers and the boolean flags (enabled, make-typos, scroll
smooth/instant, exploration enabled).  (When the master switch is off the
round trip instead returns the OFF preset, per the counterexample.) -/
theorem config_round_trip_buckets_flags (c : HumanizeConfig) (h : c.enabled = true) :
    (HumanizeConfig.from_dict (HumanizeConfig.to_dict c)).enabled = c.enabled ∧
    HumanizeConfig.speed_to_str
        (HumanizeConfig.from_dict (HumanizeConfig.to_dict c)).keyboard.speed =
      HumanizeConfig.speed_to_str c.keyboard.speed ∧
    HumanizeConfig.speed_to_str
        (HumanizeConfig.from_dict (HumanizeConfig.to_dict c)).mouse.speed =
      HumanizeConfig.speed_to_str c.mouse.speed ∧
    (HumanizeConfig.from_dict (HumanizeConfig.to_dict c)).scroll.enabled = c.scroll.enabled ∧
    ((0 < (HumanizeConfig.from_dict (HumanizeConfig.to_dict c)).keyboard.typo_chance) ↔
      (0 < c.keyboard.typo_chance)) ∧
    (HumanizeConfig.from_dict (HumanizeConfig.to_dict c)).exploration.enabled =
      c.exploration.enabled := by
  unfold HumanizeConfig.from_dict HumanizeConfig.to_dict
  simp only [Option.getD_some, h, Bool.not_true, Bool.false_eq_true, if_false, reduceIte]
  refine ⟨trivial, speed_bucket_round _, speed_bucket_round _, ?_, ?_, trivial⟩
  · cases hs : c.scroll.enabled <;> simp [hs]
  · by_cases ht : 0 < c.keyboard.typo_chance <;> simp [ht]

/-- Witness for C5 at the AGGRESSIVE preset (master switch on, slow speeds,
positive typo chance). -/
theorem config_round_trip_buckets_flags_inst :
    HumanizeConfig.speed_to_str
        (HumanizeConfig.from_dict
          (HumanizeConfig.to_dict (HumanizeConfig.from_level .aggressive))).mouse.speed =
      HumanizeConfig.speed_to_str (HumanizeConfig.from_level .aggressive).mouse.speed ∧
    (HumanizeConfig.from_dict
        (HumanizeConfig.to_dict (HumanizeConfig.from_level .aggressive))).scroll.enabled =
      (HumanizeConfig.from_level .aggressive).scroll.enabled :=
  ⟨(config_round_trip_buckets_flags (HumanizeConfig.from_level .aggressive) rfl).2.2.1,
   (config_round_trip_buckets_flags (HumanizeConfig.from_level .aggressive) rfl).2.2.2.1⟩

/-! ## C6: scroll momentum steps -/

namespace ScrollPhysics

/-- The signed step distances emitted so far always account exactly for the
distance already covered: their sum is `direction * (remaining_in - remaining_out)`. -/
lemma momentumAux_sum (friction min_velocity direction : ℚ) (s : Streams) :
    ∀ (fuel : ℕ) (n : ℕ) (remaining velocity : ℚ),
      ((momentumAux friction min_velocity direction s fuel n remaining velocity).1.map
          Prod.fst).sum =
        direction *
          (remaining - (momentumAux friction min_velocity direction s fuel n remaining velocity).2) := by
  intro fuel
  induction fuel with
  | zero => intro n remaining velocity; simp [momentumAux]
  | succ fuel ih =>
    intro n remaining velocity
    rw [momentumAux]
    split
    · simp only [List.map_cons, List.sum_cons, ih]
      ring
    · simp

/-- The remaining distance never becomes negative. -/
lemma momentumAux_rem_nonneg (friction min_velocity direction : ℚ) (s : Streams) :
    ∀ (fuel : ℕ) (n : ℕ) (remaining velocity : ℚ), 0 ≤ remaining →
      0 ≤ (momentumAux friction min_velocity direction s fuel n remaining velocity).2 := by
  intro fuel
  induction fuel with
  | zero => intro n remaining velocity h; simpa [momentumAux] using h
  | succ fuel ih =>
    intro n remaining velocity h
    rw [momentumAux]
    split
    · exact ih _ _ _ (by simp only [sub_nonneg]; exact min_le_right _ _)
    · simpa using h

/-- Once the decayed velocity has fallen to the floor, extra fuel changes
nothing: the fuel of the model is immaterial beyond that point. -/
lemma momentumAux_stable (friction min_velocity direction : ℚ) (s : Streams) :
    ∀ (fuel k n : ℕ) (remaining velocity : ℚ),
      velocity * friction ^ fuel ≤ min_velocity →
      momentumAux friction min_velocity direction s (fuel + k) n remaining velocity =
        momentumAux friction min_velocity direction s fuel n remaining velocity := by
  intro fuel
  induction fuel with
  | zero =>
    intro k n remaining velocity h
    rw [pow_zero, mul_one] at h
    cases k with
    | zero => rfl
    | succ k =>
      have e : 0 + (k + 1) = k + 1 := by omega
      rw [e, momentumAux, momentumAux]
      rw [if_neg (fun hc => absurd h (not_le.mpr hc.2))]
  | succ fuel ih =>
    intro k n remaining velocity h
    have h' : velocity * friction * friction ^ fuel ≤ min_velocity := by
      rw [mul_assoc, ← pow_succ']
      exact h
    have e : fuel + 1 + k = (fuel + k) + 1 := by omega
    rw [e, momentumAux, momentumAux]
    split
    · simp only [fun k' n' r' => ih k' n' r' (velocity * friction) h']
    · rfl

/-- The decayed 50-px/step velocity falls below the 2-px floor within 20
iterations, so the hard-coded fuel of `calculate_momentum_steps` never
truncates the loop for the engine's default parameters. -/
lemma momentum_default_fuel_ample (s : Streams) (direction : ℚ) (n : ℕ)
    (remaining : ℚ) :
    momentumAux 0.85 2 direction s 10000 n remaining 50 =
      momentumAux 0.85 2 direction s 20 n remaining 50 := by
  have h : (50 : ℚ) * 0.85 ^ 20 ≤ 2 := by norm_num
  have := momentumAux_stable 0.85 2 direction s 20 9980 n remaining 50 h
  norm_num at this ⊢
  exact this

end ScrollPhysics

/-- C6: the signed per-step distances of `calculate_momentum_steps` sum
exactly to the requested distance for every nonzero distance (any streams,
default velocity 50 / friction 0.85 / floor 2), and for the spec's example
scenario (distance 1000, velocity 50, friction 0.85) the emitted sequence is
strictly decreasing apart from the final corrective step and sums to 1000. -/
theorem momentum_steps_sum_and_decreasing :
    (∀ (s : Streams) (n : ℕ) (d : ℚ), d ≠ 0 →
      ((ScrollPhysics.calculate_momentum_steps s n d 50 0.85 2).map Prod.fst).sum = d) ∧
    ((ScrollPhysics.calculate_momentum_steps sZero 0 1000 50 0.85 2).map
        Prod.fst).dropLast.Pairwise (fun a b => b < a) ∧
    ((ScrollPhysics.calculate_momentum_steps sZero 0 1000 50 0.85 2).map Prod.fst).sum = 1000 := by
  refine ⟨fun s n d hd => ?_, by decide, by decide⟩
  by_cases hdp : d > 0
  · have hsum := ScrollPhysics.momentumAux_sum 0.85 2 1 s 10000 n |d| 50
    have hrem := ScrollPhysics.momentumAux_rem_nonneg 0.85 2 1 s 10000 n |d| 50 (abs_nonneg d)
    have habs : |d| = d := abs_of_pos hdp
    simp only [ScrollPhysics.calculate_momentum_steps, if_pos hdp]
    split
    · rw [List.map_append, List.sum_append, hsum]
      simp only [List.map_cons, List.map_nil, List.sum_cons, List.sum_nil, add_zero]
      rw [habs]
      ring
    · rename_i hnpos
      have hz := le_antisymm (not_lt.mp hnpos) hrem
      rw [hsum, hz, sub_zero, one_mul, habs]
  · have hdn : d < 0 := lt_of_le_of_ne (not_lt.mp hdp) hd
    have hsum := ScrollPhysics.momentumAux_sum 0.85 2 (-1) s 10000 n |d| 50
    have hrem := ScrollPhysics.momentumAux_rem_nonneg 0.85 2 (-1) s 10000 n |d| 50 (abs_nonneg d)
    have habs : |d| = -d := abs_of_neg hdn
    simp only [ScrollPhysics.calculate_momentum_steps, if_neg hdp]
    split
    · rw [List.map_append, List.sum_append, hsum]
      simp only [List.map_cons, List.map_nil, List.sum_cons, List.sum_nil, add_zero]
      rw [habs]
      ring
    · rename_i hnpos
      have hz := le_antisymm (not_lt.mp hnpos) hrem
      rw [hsum, hz, sub_zero, habs]
      ring

/-- Witness for C6 at distance 1000. -/
theorem momentum_steps_sum_inst :
    (1000 : ℚ) ≠ 0 ∧
      ((ScrollPhysics.calculate_momentum_steps sZero 0 1000 50 0.85 2).map Prod.fst).sum = 1000 :=
  ⟨by norm_num, momentum_steps_sum_and_decreasing.1 sZero 0 1000 (by norm_num)⟩

/-! ## C2: WindMouse termination and exact target -/

namespace WindMouse

/-- The loop appends at most `cap + 1` points. -/
lemma loopAux_length_le (o : Oracles) (s : Streams)
    (gravity wind min_wait max_wait max_step target_area : ℚ) (endP : Point) :
    ∀ (cap n : ℕ) (st : WState),
      (loopAux o s gravity wind min_wait max_wait max_step target_area endP cap n st).1.length ≤
        cap + 1 := by
  intro cap
  induction cap with
  | zero =>
    intro n st
    rw [loopAux]
    split
    · simp
    · simp
  | succ cap ih =>
    intro n st
    rw [loopAux]
    split
    · simp
    · simpa using Nat.succ_le_succ (ih _ _)

/-- The final entry of a generated path is always the exact
`(end, min_wait)` pair appended after the loop. -/
lemma generate_path_getLast (o : Oracles) (s : Streams) (n : ℕ) (start endP : Point)
    (gravity wind min_wait max_wait max_step target_area : ℚ) :
    (generate_path o s n start endP gravity wind min_wait max_wait max_step
        target_area).1.getLast? = some (endP, min_wait) := by
  simp only [generate_path, ← List.cons_append]
  exact List.getLast?_concat _

end WindMouse

/-- C2: for every oracle, stream, start/end point and parameter setting,
`WindMouse.generate_path` terminates within the 2000-append safety cap — the
whole path, including the seeded first point and the forced final point,
never exceeds 2002 entries — and its final entry is exactly the target
coordinate (with the `min_wait` delay). -/
theorem windmouse_terminates_and_hits_target (o : Oracles) (s : Streams) (n : ℕ)
    (start endP : Point) (gravity wind min_wait max_wait max_step target_area : ℚ) :
    (WindMouse.generate_path o s n start endP gravity wind min_wait max_wait max_step
        target_area).1.length ≤ 2002 ∧
    (WindMouse.generate_path o s n start endP gravity wind min_wait max_wait max_step
        target_area).1.getLast? = some (endP, min_wait) := by
  constructor
  · have h := WindMouse.loopAux_length_le o s gravity wind min_wait max_wait max_step
      target_area endP 1999 n ⟨⟨start.x, start.y⟩, 0, 0, 0, 0⟩
    simp only [WindMouse.generate_path, List.length_cons, List.length_append,
      List.length_singleton, List.length_nil]
    omega
  · exact WindMouse.generate_path_getLast o s n start endP gravity wind min_wait max_wait
      max_step target_area

/-! ## C1: trajectory final point under jitter -/

namespace HumanMouse

/-- Jittering a path with a known last element jitters that last element at
the stream position reached after the prefix. -/
lemma jitter_path_append (mc : MouseConfig) (s : Streams) :
    ∀ (l : List (Point × ℚ)) (n : ℕ) (a : Point × ℚ),
      (jitter_path mc s n (l ++ [a])).1 =
        (jitter_path mc s n l).1 ++
          [((add_jitter mc s (jitter_path mc s n l).2 a.1).1, a.2)] := by
  intro l
  induction l with
  | nil =>
    intro n a
    obtain ⟨p, d⟩ := a
    simp [jitter_path]
  | cons q l ih =>
    intro n a
    obtain ⟨p, d⟩ := q
    simp only [List.cons_append, jitter_path, List.cons.injEq, true_and]
    exact ih _ a

/-- The last entry of a generated trajectory is the jittered exact target
(at some stream position), carrying the `min_wait` delay. -/
lemma generate_trajectory_last (mc : MouseConfig) (o : Oracles) (s : Streams)
    (n : ℕ) (start endP : Point) (target_width : ℚ) :
    ∃ m, (generate_trajectory mc o s n start endP target_width).1.getLast? =
      some ((add_jitter mc s m endP).1, mc.wind_min_wait) := by
  simp only [generate_trajectory, WindMouse.generate_path, ← List.cons_append]
  rw [jitter_path_append]
  exact ⟨_, List.getLast?_concat _⟩

end HumanMouse

/-- C1 counterexample: with the MODERATE defaults (jitter amplitude 2) and
unit draws of 3/4, a degenerate move from `(0,0)` to `(0,0)` returns a
trajectory whose final point is `(1,1)`, not the requested target: the
post-jitter path does not end exactly at the end point. -/
theorem trajectory_jitter_moves_final_point :
    (HumanMouse.generate_trajectory moderateConfig.mouse oracle0 sQ34 0
        ⟨0, 0⟩ ⟨0, 0⟩ 50).1.getLast?.map Prod.fst ≠ some ⟨0, 0⟩ := by
  decide

/-- C1 as amended: the WindMouse path itself always ends exactly at the
requested end point; the jittered trajectory `_generate_trajectory` hands to
the caller ends exactly there only when the configured jitter amplitude is
`≤ 0`, and with a positive amplitude its final point deviates from the end
point by at most the amplitude in each coordinate (for in-range unit draws). -/
theorem trajectory_final_point_jitter_bound (mc : MouseConfig) (o : Oracles)
    (s : Streams) (n : ℕ) (start endP : Point) (target_width : ℚ) :
    ((WindMouse.generate_path o s n start endP mc.wind_gravity mc.wind_wind
        mc.wind_min_wait mc.wind_max_wait mc.wind_max_step
        mc.wind_target_area).1.getLast?.map Prod.fst = some endP) ∧
    (mc.jitter ≤ 0 →
      (HumanMouse.generate_trajectory mc o s n start endP target_width).1.getLast?.map
          Prod.fst = some endP) ∧
    (0 < mc.jitter → (∀ k, 0 ≤ s.unit k ∧ s.unit k ≤ 1) →
      ∃ p, (HumanMouse.generate_trajectory mc o s n start endP target_width).1.getLast?.map
          Prod.fst = some p ∧
        |p.x - endP.x| ≤ (mc.jitter : ℚ) ∧ |p.y - endP.y| ≤ (mc.jitter : ℚ)) := by
  obtain ⟨m, hm⟩ := HumanMouse.generate_trajectory_last mc o s n start endP target_width
  refine ⟨?_, fun hj => ?_, fun hj hu => ?_⟩
  · rw [WindMouse.generate_path_getLast]
    rfl
  · rw [hm]
    simp [HumanMouse.add_jitter, hj]
  · have hjq : (0 : ℚ) < (mc.jitter : ℚ) := by exact_mod_cast hj
    rw [hm]
    simp only [HumanMouse.add_jitter, if_neg (not_le.mpr hj)]
    refine ⟨_, rfl, ?_, ?_⟩
    · have h1 := (hu m).1
      have h2 := (hu m).2
      simp only [pyUniform, add_sub_cancel_left]
      rw [abs_le]
      constructor <;> nlinarith
    · have h1 := (hu (m + 1)).1
      have h2 := (hu (m + 1)).2
      simp only [pyUniform, add_sub_cancel_left]
      rw [abs_le]
      constructor <;> nlinarith

/-- Witness for C1: with jitter disabled the trajectory ends exactly at the
target; with the default amplitude 2 the final point stays within 2 of the
target per coordinate. -/
theorem trajectory_final_point_jitter_bound_inst :
    ((HumanMouse.generate_trajectory { jitter := 0 } oracle0 sHalf 0
        ⟨0, 0⟩ ⟨3, 4⟩ 50).1.getLast?.map Prod.fst = some ⟨3, 4⟩) ∧
    (∃ p, (HumanMouse.generate_trajectory { } oracle0 sHalf 0
        ⟨0, 0⟩ ⟨3, 4⟩ 50).1.getLast?.map Prod.fst = some p ∧
      |p.x - 3| ≤ ((2 : ℤ) : ℚ) ∧ |p.y - 4| ≤ ((2 : ℤ) : ℚ)) :=
  ⟨(trajectory_final_point_jitter_bound { jitter := 0 } oracle0 sHalf 0
      ⟨0, 0⟩ ⟨3, 4⟩ 50).2.1 (by norm_num),
   (trajectory_final_point_jitter_bound { } oracle0 sHalf 0
      ⟨0, 0⟩ ⟨3, 4⟩ 50).2.2 (by norm_num) (fun k => by norm_num [sHalf])⟩

/-! ## C8: failed move short-circuits click -/

/-- C8: with the mouse engine active, a target that cannot be resolved makes
`move_to` report failure (with no page interaction at all), and `click`
short-circuits on that failure: it returns `false` and its trace contains no
pointer-down event. -/
theorem click_short_circuits_on_missing_target (cfg : HumanizeConfig)
    (env : MouseEnv) (o : Oracles) (s : Streams) (n : ℕ) (button : String)
    (h1 : cfg.enabled = true) (h2 : cfg.mouse.enabled = true)
    (hb : env.bounds = none) :
    HumanMouse.move_to cfg env o s n = (false, [], n) ∧
    (HumanMouse.click cfg env o s n button).1 = false ∧
    Event.mouseDown button ∉ (HumanMouse.click cfg env o s n button).2.1 := by
  have hmv : HumanMouse.move_to cfg env o s n = (false, [], n) := by
    simp [HumanMouse.move_to, h1, h2, hb]
  refine ⟨hmv, ?_, ?_⟩ <;> simp [HumanMouse.click, h1, h2, hmv]

/-- Witness for C8: a missing target under the MODERATE defaults. -/
theorem click_short_circuits_inst :
    (HumanMouse.click moderateConfig ⟨none, ⟨0, 0⟩⟩ oracle0 sHalf 0 "left").1 = false ∧
    Event.mouseDown "left" ∉
      (HumanMouse.click moderateConfig ⟨none, ⟨0, 0⟩⟩ oracle0 sHalf 0 "left").2.1 :=
  ⟨(click_short_circuits_on_missing_target moderateConfig ⟨none, ⟨0, 0⟩⟩ oracle0 sHalf 0
      "left" rfl rfl rfl).2.1,
   (click_short_circuits_on_missing_target moderateConfig ⟨none, ⟨0, 0⟩⟩ oracle0 sHalf 0
      "left" rfl rfl rfl).2.2⟩

/-! ## C9: key hold time defaults to 50 when the keyboard module is off -/

/-- A resolvable target always makes `move_to` succeed. -/
lemma move_to_found (cfg : HumanizeConfig) (env : MouseEnv) (o : Oracles)
    (s : Streams) (n : ℕ) (box : Box) (h1 : cfg.enabled = true)
    (h2 : cfg.mouse.enabled = true) (hb : env.bounds = some box) :
    (HumanMouse.move_to cfg env o s n).1 = true := by
  simp only [HumanMouse.move_to, h1, h2, hb, Bool.not_true, Bool.or_self, Bool.false_or,
    if_false]
  by_cases hov :
    (HumanTiming.should_overshoot_mouse cfg s
      (HumanMouse.get_click_offset cfg.mouse s n box).2).1 = true <;>
    simp [hov]

/-- C9: unlike the category delays, `get_key_hold_time` does not fall back to
0 when the master switch or the keyboard module is off — it returns the fixed
default 50; consequently a humanized click performed with the keyboard module
disabled still holds the button for exactly 50 ms between pointer-down and
pointer-up. -/
theorem key_hold_time_default_50 (cfg : HumanizeConfig) (env : MouseEnv)
    (o : Oracles) (s : Streams) (n : ℕ) (button : String) (box : Box)
    (hkb : cfg.keyboard.enabled = false) (h1 : cfg.enabled = true)
    (h2 : cfg.mouse.enabled = true) (hb : env.bounds = some box) :
    HumanTiming.get_key_hold_time cfg s n = (50, n) ∧
    (∀ cfg2 : HumanizeConfig, cfg2.enabled = false →
      HumanTiming.get_key_hold_time cfg2 s n = (50, n)) ∧
    ∃ pre n2, HumanMouse.click cfg env o s n button =
      (true, pre ++ [Event.mouseDown button, Event.sleep 50, Event.mouseUp button], n2) := by
  have hhold : ∀ m : ℕ, HumanTiming.get_key_hold_time cfg s m = (50, m) := fun m => by
    simp [HumanTiming.get_key_hold_time, hkb]
  have hmv1 := move_to_found cfg env o s n box h1 h2 hb
  refine ⟨hhold n, fun cfg2 hoff => by simp [HumanTiming.get_key_hold_time, hoff], ?_⟩
  refine ⟨(HumanMouse.move_to cfg env o s n).2.1 ++
      delayEvents ((HumanTiming.click_hesitation cfg s
        (HumanMouse.move_to cfg env o s n).2.2).1 : ℚ),
    (HumanTiming.click_hesitation cfg s (HumanMouse.move_to cfg env o s n).2.2).2, ?_⟩
  simp [HumanMouse.click, h1, h2, hmv1, hhold, delayEvents]

/-- Witness for C9: defaults with only the keyboard module disabled, a found
40×50 element, constant one-half draws. -/
theorem key_hold_time_default_50_inst :
    HumanTiming.get_key_hold_time kbOffConfig sHalf 0 = (50, 0) ∧
    ∃ pre n2, HumanMouse.click kbOffConfig ⟨some ⟨100, 100, 50, 40⟩, ⟨125, 120⟩⟩ oracle0
        sHalf 0 "left" =
      (true, pre ++ [Event.mouseDown "left", Event.sleep 50, Event.mouseUp "left"], n2) :=
  ⟨(key_hold_time_default_50 kbOffConfig ⟨some ⟨100, 100, 50, 40⟩, ⟨125, 120⟩⟩ oracle0 sHalf 0
      "left" ⟨100, 100, 50, 40⟩ rfl rfl rfl rfl).1,
   (key_hold_time_default_50 kbOffConfig ⟨some ⟨100, 100, 50, 40⟩, ⟨125, 120⟩⟩ oracle0 sHalf 0
      "left" ⟨100, 100, 50, 40⟩ rfl rfl rfl rfl).2.2⟩

/-! ## C4: typo pattern and execution sequence -/

/-- C4 counterexample: on the draw stream that is zero everywhere, the
source's five-pattern generator (`TypoGenerator.generate_typo`) selects the
double-letter pattern for `'h'` — type the same letter twice, no backspace —
yet the typo `type_text` actually executes presses the adjacent key `"g"`
(not `"h"`) and then a backspace: the injected typo is not drawn from the
five-pattern uniform choice the claim describes. -/
theorem typo_pattern_not_uniform_five :
    (TypoGenerator.generate_typo sZero 0 ['h'] 0).1 = ("double", "h") ∧
    (HumanKeyboard.type_text moderateConfig ⟨true⟩ sZero ['h'] true 0).2.1 =
      [Event.elemClick, Event.fillField "", Event.press "g" 30,
        Event.press "Backspace" 0, Event.sleep 50, Event.press "h" 30] := by
  decide

/-- `random.choice` picks an element of a nonempty list for in-range draws. -/
lemma pyChoice_mem {α : Type} (s : Streams) (n : ℕ) (l : List α) (d : α)
    (hne : l ≠ []) (h0 : 0 ≤ s.unit n) (h1 : s.unit n < 1) :
    pyChoice s n l d ∈ l := by
  unfold pyChoice
  have hlen : 0 < l.length := List.length_pos.mpr hne
  have hlq : (0 : ℚ) < (l.length : ℚ) := by exact_mod_cast hlen
  have hfl0 : 0 ≤ ⌊s.unit n * (l.length : ℚ)⌋ :=
    Int.le_floor.mpr (by simpa using mul_nonneg h0 hlq.le)
  have hflt : ⌊s.unit n * (l.length : ℚ)⌋ < (l.length : ℤ) :=
    Int.floor_lt.mpr (by push_cast; nlinarith)
  have hidx : (⌊s.unit n * (l.length : ℚ)⌋).toNat < l.length := by omega
  rw [List.getD_eq_getElem l d hidx]
  exact List.getElem_mem hidx

/-- `get_adjacent_key` consumes exactly one draw. -/
lemma get_adjacent_key_idx (s : Streams) (n : ℕ) (c : Char) :
    (TypoGenerator.get_adjacent_key s n c).2 = n + 1 := by
  unfold TypoGenerator.get_adjacent_key
  split <;> rfl

/-- C4 as amended: a typo injected by `type_text` always executes the
sequence wrong-character press, realize-delay, backspace, correct-delay,
correct-character press, and the wrong character is an adjacent-key
substitution (`get_adjacent_key`: a QWERTY neighbor of the character, case
preserved) — never one of the other four patterns of the unused five-pattern
generator.  Stated for a one-character alphabetic text whose typo draw
fires; the stream hypotheses encode in-range unit draws and a nondegenerate
pre-type delay interval. -/
theorem typo_sequence_adjacent_key (cfg : HumanizeConfig) (env : HumanKeyboard.KbEnv)
    (s : Streams) (n : ℕ) (c : Char)
    (he : cfg.enabled = true) (hk : cfg.keyboard.enabled = true)
    (hf : env.found = true)
    (hp : cfg.timing.pre_type_delay.1 < cfg.timing.pre_type_delay.2)
    (ha : c.isAlpha = true)
    (hu : ∀ k, 0 ≤ s.unit k ∧ s.unit k < 1)
    (hty : s.unit (n + 2) < cfg.keyboard.typo_chance) :
    ∃ pt h1 rd cd h2 dl n2,
      HumanKeyboard.type_text cfg env s [c] true n =
        (true,
          [Event.elemClick, Event.fillField ""] ++ delayEvents pt ++
            [Event.press
              (String.singleton (TypoGenerator.get_adjacent_key s (n + 3) c).1) h1] ++
            delayEvents rd ++ (Event.press "Backspace" 0 :: delayEvents cd) ++
            [Event.press (String.singleton c) h2] ++ delayEvents dl,
          n2) ∧
      (∀ ns, QWERTY_NEIGHBORS c.toLower = some ns → ns ≠ [] →
        (TypoGenerator.get_adjacent_key s (n + 3) c).1 ∈
          ns.map (fun x => if c.isUpper then x.toUpper else x)) := by
  -- the pre-type delay consumes exactly one draw
  have hptd : (HumanTiming.pre_type_delay cfg s n).2 = n + 1 := by
    simp [HumanTiming.pre_type_delay, HumanTiming.random_delay, he, not_le.mpr hp]
  obtain ⟨ptv, hpt⟩ : ∃ v, HumanTiming.pre_type_delay cfg s n = (v, n + 1) :=
    ⟨_, Prod.ext rfl hptd⟩
  -- the thinking-pause window is never reached on the first character
  have hwin := pyRandint_bounds s (n + 1) (by norm_num : (5 : ℤ) ≤ 15)
    (hu (n + 1)).1 (hu (n + 1)).2
  have hnotwin : ¬(pyRandint s (n + 1) 5 15 ≤ (1 : ℤ)) := by omega
  -- the typo decision fires
  have hsty : HumanTiming.should_typo cfg s (n + 2) = (true, n + 3) := by
    simp [HumanTiming.should_typo, he, hk, hty]
  -- an alphabetic character is not a space
  have hspace : ¬(c = ' ') := fun hceq => by
    rw [hceq] at ha
    exact absurd ha (by decide)
  -- name every sampled value along the executed path
  obtain ⟨w, hw⟩ : ∃ w, TypoGenerator.get_adjacent_key s (n + 3) c = (w, n + 4) :=
    ⟨_, Prod.ext rfl (get_adjacent_key_idx s (n + 3) c)⟩
  obtain ⟨h1v, i1, he1⟩ : ∃ v i, HumanTiming.get_key_hold_time cfg s (n + 4) = (v, i) :=
    ⟨_, _, rfl⟩
  obtain ⟨rdv, i2, hrd⟩ : ∃ v i, HumanTiming.get_typo_realize_delay cfg s i1 = (v, i) :=
    ⟨_, _, rfl⟩
  obtain ⟨cdv, i3, hcd⟩ : ∃ v i, HumanTiming.get_typo_correct_delay cfg s i2 = (v, i) :=
    ⟨_, _, rfl⟩
  have hmt : HumanKeyboard.make_typo cfg s (n + 3) c =
      ([Event.press (String.singleton w) ((h1v : ℚ))] ++ delayEvents ((rdv : ℚ)) ++
        (Event.press "Backspace" 0 :: delayEvents ((cdv : ℚ))), i3) := by
    simp [HumanKeyboard.make_typo, HumanKeyboard.type_char, hw, he1, hrd, hcd]
  obtain ⟨h2v, i4, he2⟩ : ∃ v i, HumanTiming.get_key_hold_time cfg s i3 = (v, i) :=
    ⟨_, _, rfl⟩
  have hch : HumanKeyboard.type_char cfg s i3 c =
      ([Event.press (String.singleton c) ((h2v : ℚ))], i4) := by
    simp [HumanKeyboard.type_char, he2]
  obtain ⟨dlv, i5, hdl⟩ : ∃ v i, HumanKeyboard.get_char_delay cfg s i4 c none = (v, i) :=
    ⟨_, _, rfl⟩
  refine ⟨(ptv : ℚ), (h1v : ℚ), (rdv : ℚ), (cdv : ℚ), (h2v : ℚ), (dlv : ℚ), i5, ?_, ?_⟩
  · have hloop : HumanKeyboard.type_loop cfg s [c] none 0 (n + 1) =
        ([] ++ ([Event.press (String.singleton w) ((h1v : ℚ))] ++ delayEvents ((rdv : ℚ)) ++
            (Event.press "Backspace" 0 :: delayEvents ((cdv : ℚ)))) ++
          [Event.press (String.singleton c) ((h2v : ℚ))] ++ delayEvents ((dlv : ℚ)) ++
          [] ++ [], i5) := by
      simp [HumanKeyboard.type_loop, hnotwin, hsty, ha, hmt, hch, hdl, hspace]
    rw [hw]
    simp only [HumanKeyboard.type_text, he, hk, hf, Bool.not_true, Bool.or_self,
      Bool.false_or, if_false, reduceIte, if_true, hpt, hloop]
    simp [List.append_assoc]
  · intro ns hns hne
    have hwv : (TypoGenerator.get_adjacent_key s (n + 3) c).1 =
        (if c.isUpper then (pyChoice s (n + 3) ns 'a').toUpper
          else pyChoice s (n + 3) ns 'a') := by
      unfold TypoGenerator.get_adjacent_key
      rw [hns]
    rw [hwv]
    have hmem := pyChoice_mem s (n + 3) ns 'a' hne (hu (n + 3)).1 (hu (n + 3)).2
    by_cases hup : c.isUpper = true
    · simpa [hup] using
        List.mem_map_of_mem (fun x : Char => if c.isUpper then x.toUpper else x) hmem
    · simpa [hup] using
        List.mem_map_of_mem (fun x : Char => if c.isUpper then x.toUpper else x) hmem

/-- Witness for C4: MODERATE defaults, the letter `'h'`, and a stream whose
typo-decision draw fires. -/
theorem typo_sequence_adjacent_key_inst :
    ∃ pt h1 rd cd h2 dl n2,
      HumanKeyboard.type_text moderateConfig ⟨true⟩ sTypo ['h'] true 0 =
        (true,
          [Event.elemClick, Event.fillField ""] ++ delayEvents pt ++
            [Event.press
              (String.singleton (TypoGenerator.get_adjacent_key sTypo 3 'h').1) h1] ++
            delayEvents rd ++ (Event.press "Backspace" 0 :: delayEvents cd) ++
            [Event.press (String.singleton 'h') h2] ++ delayEvents dl,
          n2) ∧
      (∀ ns, QWERTY_NEIGHBORS 'h'.toLower = some ns → ns ≠ [] →
        (TypoGenerator.get_adjacent_key sTypo 3 'h').1 ∈
          ns.map (fun x => if 'h'.isUpper then x.toUpper else x)) :=
  typo_sequence_adjacent_key moderateConfig ⟨true⟩ sTypo 0 'h' rfl rfl rfl
    (by norm_num [moderateConfig, HumanizeConfig.from_level]) (by decide)
    (fun k => by by_cases h : k = 2 <;> norm_num [sTypo, h])
    (by norm_num [sTypo, moderateConfig, HumanizeConfig.from_level])
